import Mathlib

/-!
Shallow embedding of the session/channel flow-control core of the
LovelyERes repository (`src-tauri/src/ssh_flow_control.rs` and the
terminal-session management in `src-tauri/src/ssh_manager.rs`).

Modelling conventions:
* bytes are `Nat` (values < 256 are irrelevant to the verified properties);
* `Instant` timestamps are `Nat` milliseconds; `elapsed` at time `now` is
  `now - timestamp` and `Duration` constants are in milliseconds;
* `u32` / `u64` machine arithmetic is `Nat` with explicit `% 2^32` / `% 2^64`
  at the points where the Rust code casts or can overflow, and Nat
  subtraction models Rust's `saturating_sub`;
* the SSH channel is an oracle: call number and chunk in, outcome out;
* fallible operations return `Except`.
-/

namespace LovelyERes

instance {ε α : Type} [DecidableEq ε] [DecidableEq α] : DecidableEq (Except ε α) := fun
  | .ok a, .ok b => decidable_of_iff (a = b) (by simp)
  | .ok _, .error _ => .isFalse (by simp)
  | .error _, .ok _ => .isFalse (by simp)
  | .error a, .error b => decidable_of_iff (a = b) (by simp)

def U32_LIMIT : Nat := 2 ^ 32
def U64_LIMIT : Nat := 2 ^ 64

/-- `InputPriority` from `ssh_flow_control.rs` (derive `Ord` on the Rust enum
orders by discriminant: Control 0 < Navigation 1 < Normal 2 < Bulk 3). -/
inductive InputPriority where
  | Control
  | Navigation
  | Normal
  | Bulk
deriving DecidableEq, Repr

/-- Discriminant of the Rust enum; the derived `Ord` compares these. -/
def InputPriority.val : InputPriority → Nat
  | .Control => 0
  | .Navigation => 1
  | .Normal => 2
  | .Bulk => 3

/-- `BufferedInput`: payload bytes, creation instant, priority, retry counter. -/
structure BufferedInput where
  data : List Nat
  timestamp : Nat
  priority : InputPriority
  retry_count : Nat
deriving DecidableEq, Repr

/-- `BufferedInput::is_stale`: `self.timestamp.elapsed() > timeout`. -/
def BufferedInput.is_stale (e : BufferedInput) (now timeout : Nat) : Bool :=
  timeout < now - e.timestamp

/-- Configuration fields of `SSHFlowController` set in `new()`. -/
def MAX_BUFFER_SIZE : Nat := 1024 * 1024
def MAX_RETRY_COUNT : Nat := 100
def DRAIN_TIMEOUT : Nat := 3600 * 1000
def INITIAL_WINDOW_SIZE : Nat := 1024 * 1024

/-- The eviction loop in `queue_input`: while the buffer is still at or over
the bound and non-empty, pop the front entry if its priority is
`>= InputPriority::Normal`, otherwise stop. -/
def evictLoop (maxBuf : Nat) : List BufferedInput → List BufferedInput
  | [] => []
  | f :: rest =>
    if maxBuf ≤ (f :: rest).length ∧ InputPriority.Normal.val ≤ f.priority.val then
      evictLoop maxBuf rest
    else
      f :: rest

/-- The insertion scan in `queue_input`: insert the new entry before the first
existing entry of strictly greater priority value, else push to the back. -/
def insertByPriority (input : BufferedInput) : List BufferedInput → List BufferedInput
  | [] => [input]
  | e :: rest =>
    if input.priority.val < e.priority.val then
      input :: e :: rest
    else
      e :: insertByPriority input rest

/-- Error values surfaced by the flow controller (`LovelyResError::SSHError`
with the distinguishing message contents the code later matches on). -/
inductive FlowErr where
  /-- "Input buffer overflow - too much pending input" -/
  | bufferOverflow
  /-- "SSH window full - flow control active" -/
  | windowFull
  /-- "Would block" -/
  | wouldBlock
  /-- "Broken pipe" -/
  | brokenPipe
  /-- "Write error: {e}"; the flags record which of the substrings
  "draining incoming flow", "EAGAIN", "Connection reset",
  "sending on a closed channel" occur in the underlying message. -/
  | writeError (drainingFlow eagain connectionReset closedChannel : Bool)
deriving DecidableEq, Repr

/-- `SSHFlowController::queue_input`.  Returns the call's result together with
the buffer as the method leaves it (the eviction loop mutates the shared
buffer even when the call then fails with the overflow error). -/
def queue_input (maxBuf : Nat) (buffer : List BufferedInput)
    (data : List Nat) (priority : InputPriority) (now : Nat) :
    Except FlowErr Unit × List BufferedInput :=
  let buffer := if maxBuf ≤ buffer.length then evictLoop maxBuf buffer else buffer
  if maxBuf ≤ buffer.length then
    (.error .bufferOverflow, buffer)
  else
    (.ok (), insertByPriority ⟨data, now, priority, 0⟩ buffer)

example :
    (queue_input 4 [] [65] .Normal 0).2 = [⟨[65], 0, .Normal, 0⟩] := by decide

example :
    (queue_input 4 [⟨[65], 0, .Normal, 0⟩] [3] .Control 1).2 =
      [⟨[3], 1, .Control, 0⟩, ⟨[65], 0, .Normal, 0⟩] := by decide

-- a full buffer whose front entry is Control: no eviction, overflow error
example :
    (queue_input 2 [⟨[3], 0, .Control, 0⟩, ⟨[65], 1, .Normal, 0⟩] [66] .Normal 2).1 =
      .error .bufferOverflow := by decide

-- a full buffer of Normal entries: front is evicted and the insert succeeds
example :
    (queue_input 2 [⟨[65], 0, .Normal, 0⟩, ⟨[66], 1, .Normal, 0⟩] [67] .Normal 2).2 =
      [⟨[66], 1, .Normal, 0⟩, ⟨[67], 2, .Normal, 0⟩] := by decide

/-- `FlowControlState` from `ssh_flow_control.rs`. -/
inductive FlowControlState where
  | Normal
  | Throttled
  | Blocked
  | Draining
deriving DecidableEq, Repr

/-- The mutable fields of `SSHFlowController` (each behind its own mutex in
the source; single-threaded calls are modelled as plain state passing). -/
structure ControllerState where
  input_buffer : List BufferedInput
  flow_state : FlowControlState
  /-- `u32` window size, so always `< 2^32` on reachable states -/
  window_size : Nat
  /-- `u64` counter -/
  bytes_sent : Nat
  /-- `u64` counter; never incremented anywhere in the source -/
  bytes_acknowledged : Nat
  consecutive_failures : Nat
  last_successful_write : Nat
deriving Repr

/-- Configuration of `SSHFlowController` (fields fixed by `new()`). -/
structure Config where
  max_buffer_size : Nat
  max_retry_count : Nat
  drain_timeout : Nat
deriving Repr

def defaultConfig : Config :=
  ⟨MAX_BUFFER_SIZE, MAX_RETRY_COUNT, DRAIN_TIMEOUT⟩

/-- The state `SSHFlowController::new()` creates. -/
def initialState : ControllerState where
  input_buffer := []
  flow_state := .Normal
  window_size := INITIAL_WINDOW_SIZE
  bytes_sent := 0
  bytes_acknowledged := 0
  consecutive_failures := 0
  last_successful_write := 0

/-- Outcome of one `channel.write(chunk)` call.  A channel is an oracle from
(call number, chunk) to an outcome; the `ioError` flags record which of the
substrings matched by `process_input` occur in the error's message. -/
inductive ChanOutcome where
  | ok (n : Nat)
  | wouldBlock
  | brokenPipe
  | ioError (drainingFlow eagain connectionReset closedChannel : Bool)
deriving DecidableEq, Repr

abbrev Chan := Nat → List Nat → ChanOutcome

/-- A channel respecting the `Write` contract: a successful write never
reports more bytes than the chunk it was handed. -/
def WellBehaved (chan : Chan) : Prop :=
  ∀ i c n, chan i c = .ok n → n ≤ c.length

/-- `get_available_window`: `window.saturating_sub((sent.saturating_sub(acked)) as u32)`.
Nat subtraction is saturating subtraction; the `as u32` cast truncates. -/
def get_available_window (s : ControllerState) : Nat :=
  s.window_size - ((s.bytes_sent - s.bytes_acknowledged) % U32_LIMIT)

/-- `can_write`: `available >= data_size && available > 0`. -/
def can_write (s : ControllerState) (len : Nat) : Bool :=
  decide (len ≤ get_available_window s) && decide (0 < get_available_window s)

/-- `write_with_flow_control`: window check, chunked write, counter updates.
The source's locals `available = get_available_window()`,
`write_size = min(data.len(), available)` and `chunk = data[..write_size]`
are inlined.  Threads the channel-call counter `idx`; `bytes_sent += n` is a
wrapping `u64` add and the window update is `window.saturating_sub(n as u32)`. -/
def write_with_flow_control (s : ControllerState) (data : List Nat)
    (chan : Chan) (idx : Nat) :
    Except FlowErr Nat × ControllerState × Nat :=
  if get_available_window s = 0 then
    (.error .windowFull, s, idx)
  else
    match chan idx (data.take (min data.length (get_available_window s))) with
    | .ok n =>
        (.ok n,
          { s with
            bytes_sent := (s.bytes_sent + n) % U64_LIMIT,
            window_size := s.window_size - (n % U32_LIMIT) },
          idx + 1)
    | .wouldBlock => (.error .wouldBlock, s, idx + 1)
    | .brokenPipe => (.error .brokenPipe, s, idx + 1)
    | .ioError a b c d => (.error (.writeError a b c d), s, idx + 1)

/-- `error_msg.contains("draining incoming flow")`. -/
def FlowErr.containsDraining : FlowErr → Bool
  | .writeError a _ _ _ => a
  | _ => false

/-- `error_msg.contains("Would block") || error_msg.contains("EAGAIN")`. -/
def FlowErr.containsWouldBlock : FlowErr → Bool
  | .wouldBlock => true
  | .writeError _ b _ _ => b
  | _ => false

/-- `contains("Broken pipe") || contains("Connection reset") || contains("sending on a closed channel")`. -/
def FlowErr.containsFatal : FlowErr → Bool
  | .brokenPipe => true
  | .writeError _ _ c d => c || d
  | _ => false

/-- `min(1000, 50 * 2_u64.pow(retry_count))` with the wrapping `u64`
arithmetic of a release build made explicit. -/
def backoff_ms (retry : Nat) : Nat :=
  min 1000 ((50 * (2 ^ retry % U64_LIMIT)) % U64_LIMIT)

/-- Result of the entry-processing loop of `process_input`.  Besides the
state, it carries ghost observations used only by the theorems: the entries
for which a channel write was attempted, those successfully written, the
sleep durations performed, and the total byte count reported by successful
writes. -/
structure LoopRes where
  /-- `some err` on the fatal branch (`buffer.clear(); return Err(e)`) -/
  fatal : Option FlowErr
  /-- the entries that remain buffered, in order (meaningful when no fatal error) -/
  kept : List BufferedInput
  written : Nat
  sleeps : List Nat
  attempted : List BufferedInput
  writtenE : List BufferedInput
  st : ControllerState
deriving Repr

/-- The `for (index, input) in buffer.iter_mut().enumerate()` loop of
`process_input`, including the staleness/retry drops, the `can_write`
throttle break, and the per-error-class handling.  `snapshot` is the
`flow_state` local variable read once at the top of `process_input`. -/
def processLoop (cfg : Config) (now : Nat) (snapshot : FlowControlState)
    (chan : Chan) :
    List BufferedInput → ControllerState → Nat → LoopRes
  | [], s, _ => ⟨none, [], 0, [], [], [], s⟩
  | e :: rest, s, idx =>
    if e.is_stale now cfg.drain_timeout then
      processLoop cfg now snapshot chan rest s idx
    else if cfg.max_retry_count ≤ e.retry_count then
      processLoop cfg now snapshot chan rest s idx
    else if ¬ can_write s e.data.length then
      ⟨none, e :: rest, 0, [], [], [], { s with flow_state := .Throttled }⟩
    else
      match write_with_flow_control s e.data chan idx with
      | (.ok n, s', idx') =>
        let s'' := { s' with
          last_successful_write := now,
          consecutive_failures := 0,
          flow_state := if snapshot ≠ .Normal then .Normal else s'.flow_state }
        let r := processLoop cfg now snapshot chan rest s'' idx'
        { r with written := n + r.written, attempted := e :: r.attempted,
                 writtenE := e :: r.writtenE }
      | (.error err, s', idx') =>
        if err.containsDraining then
          let e' := { e with retry_count := e.retry_count + 1 }
          ⟨none, e' :: rest, 0, [backoff_ms e'.retry_count], [e], [],
            { s' with flow_state := .Draining }⟩
        else if err.containsWouldBlock then
          let e' := { e with retry_count := e.retry_count + 1 }
          ⟨none, e' :: rest, 0, [], [e], [], { s' with flow_state := .Throttled }⟩
        else if err.containsFatal then
          ⟨some err, [], 0, [], [e], [], s'⟩
        else
          let e' := { e with retry_count := e.retry_count + 1 }
          let s'' := { s' with consecutive_failures := s'.consecutive_failures + 1 }
          let r := processLoop cfg now snapshot chan rest s'' idx'
          { r with kept := e' :: r.kept, attempted := e :: r.attempted }

/-- Result of one `process_input` call, with the ghost observations. -/
structure ProcOut where
  result : Except FlowErr Nat
  state : ControllerState
  sleeps : List Nat
  attempted : List BufferedInput
  writtenE : List BufferedInput
  writtenTotal : Nat
deriving Repr

/-- `SSHFlowController::process_input`: no-op when `Blocked`; in `Draining`
first retain only entries with priority `<= Navigation`; then run the
entry loop; a fatal error clears the buffer and propagates. -/
def process_input (cfg : Config) (s : ControllerState) (now : Nat)
    (chan : Chan) : ProcOut :=
  if s.flow_state = .Blocked then
    ⟨.ok 0, s, [], [], [], 0⟩
  else
    let buf :=
      if s.flow_state = .Draining then
        s.input_buffer.filter (fun e => e.priority.val ≤ InputPriority.Navigation.val)
      else s.input_buffer
    let r := processLoop cfg now s.flow_state chan buf s 0
    match r.fatal with
    | some err =>
        ⟨.error err, { r.st with input_buffer := [] }, r.sleeps,
          r.attempted, r.writtenE, r.written⟩
    | none =>
        ⟨.ok r.written, { r.st with input_buffer := r.kept }, r.sleeps,
          r.attempted, r.writtenE, r.written⟩

/-- `adjust_window`: `window.saturating_add(n)` (a `u32` add), then leave
`Blocked` for `Normal` when the new window value is positive. -/
def adjust_window (s : ControllerState) (n : Nat) : ControllerState :=
  let w := min (s.window_size + n) (U32_LIMIT - 1)
  { s with
    window_size := w,
    flow_state := if 0 < w ∧ s.flow_state = .Blocked then .Normal else s.flow_state }

/-- `clear_buffer` (emergency cleanup). -/
def clear_buffer (s : ControllerState) : ControllerState :=
  { s with input_buffer := [], flow_state := .Normal }

/-- One externally-triggered operation on the flow controller. -/
inductive Op where
  | queue (data : List Nat) (p : InputPriority) (now : Nat)
  | process (now : Nat) (chan : Chan)
  | adjust (n : Nat)
  | clear

/-- The state transition each operation performs (a failing `queue_input`
still leaves the buffer as the eviction loop left it). -/
def step (cfg : Config) (s : ControllerState) : Op → ControllerState
  | .queue data p now =>
      { s with input_buffer := (queue_input cfg.max_buffer_size s.input_buffer data p now).2 }
  | .process now chan => (process_input cfg s now chan).state
  | .adjust n => adjust_window s n
  | .clear => clear_buffer s

def run (cfg : Config) (s : ControllerState) (ops : List Op) : ControllerState :=
  ops.foldl (step cfg) s

-- a Blocked controller processes nothing
example :
    (process_input defaultConfig { initialState with flow_state := .Blocked } 0
      (fun _ _ => .ok 0)).result = .ok 0 := by decide

-- one fresh entry, channel accepts all five bytes
example :
    (process_input defaultConfig
      { initialState with input_buffer := [⟨[1, 2, 3, 4, 5], 0, .Normal, 0⟩] } 0
      (fun _ c => .ok c.length)).result = .ok 5 := by decide

example :
    (process_input defaultConfig
      { initialState with input_buffer := [⟨[1, 2, 3, 4, 5], 0, .Normal, 0⟩] } 0
      (fun _ c => .ok c.length)).state.bytes_sent = 5 := by decide

/-! ## Terminal session management (`ssh_manager.rs`) -/

/-- The terminal-session bookkeeping of `SSHManager` relevant to the claims:
the key sets of the `terminal_senders` and `active_sessions` maps (both are
keyed by `"terminal_" ++ terminal_id`; the mapped values play no role in the
verified control flow). -/
structure ManagerState where
  terminal_senders : List String
  active_sessions : List String
deriving DecidableEq, Repr

inductive MgrErr where
  /-- `SSHError("终端会话不存在: {id}")` -/
  | sessionNotFound
deriving DecidableEq, Repr

/-- `format!("terminal_{}", terminal_id)`. -/
def session_key (terminal_id : String) : String := "terminal_" ++ terminal_id

/-- `SSHManager::close_terminal_session`: unconditionally remove the sender,
then succeed if the session record existed, succeed if only the sender
existed, and fail with the not-found error otherwise. -/
def close_terminal_session (s : ManagerState) (terminal_id : String) :
    Except MgrErr Unit × ManagerState :=
  let sid := session_key terminal_id
  let sender_removed := s.terminal_senders.contains sid
  let record_present := s.active_sessions.contains sid
  let s' : ManagerState := ⟨s.terminal_senders.erase sid, s.active_sessions.erase sid⟩
  if record_present then (.ok (), s')
  else if sender_removed then (.ok (), s')
  else (.error .sessionNotFound, s')

/-- `SSHManager::resize_terminal`: looks the session up, logs that resizing
is unimplemented, and returns; the `_cols`/`_rows` arguments are ignored and
nothing is mutated (the method takes `&self`). -/
def resize_terminal (s : ManagerState) (terminal_id : String) (_cols _rows : Nat) :
    Except MgrErr Unit × ManagerState :=
  if s.active_sessions.contains (session_key terminal_id) then (.ok (), s)
  else (.error .sessionNotFound, s)

/-- `SSHManager::send_terminal_input`: push the payload into the terminal's
mpsc queue (modelled as the list of payloads pending for the worker) when a
sender is registered, else fail. -/
def send_terminal_input (s : ManagerState) (pending : List (List Nat))
    (terminal_id : String) (data : List Nat) :
    Except MgrErr Unit × List (List Nat) :=
  if s.terminal_senders.contains (session_key terminal_id) then
    (.ok (), pending ++ [data])
  else
    (.error .sessionNotFound, pending)

/-- The 1KB coalescing pass of the terminal worker loop in
`create_terminal_session`: walk the whole input queue, appending each payload
that still fits into the 1024-byte batch to `to_send` and pushing every other
payload onto `remaining`. -/
def batchInput : List (List Nat) → Nat → List Nat × List (List Nat)
  | [], _ => ([], [])
  | d :: rest, size =>
    if size + d.length ≤ 1024 then
      let r := batchInput rest (size + d.length)
      (d ++ r.1, r.2)
    else
      let r := batchInput rest size
      (r.1, d :: r.2)

/-- The input path of the terminal worker loop spawned by
`create_terminal_session`, run against an ideal channel (every
`write_all_nonblocking` succeeds, and the returned list records every byte it
wrote, in order).  Each iteration pulls up to 10 payloads from the mpsc
receiver into `queue`, coalesces up to 1024 bytes, writes the batch, and
keeps the remainder in `queue`.  `fuel` bounds the iterations of the
otherwise endless loop. -/
def terminalWorkerWritten : Nat → List (List Nat) → List (List Nat) → List Nat
  | 0, _, _ => []
  | fuel + 1, pending, queue =>
    let queue1 := queue ++ pending.take 10
    let b := batchInput queue1 0
    b.1 ++ terminalWorkerWritten fuel (pending.drop 10) b.2

/-- Where `SSHManager::execute_command` routes a command. -/
inductive ExecRoute where
  /-- `execute_command_with_independent_connection`: a fresh TCP + SSH
  session built from `last_connection_params`, run to completion -/
  | independent
  /-- `execute_command_with_main_connection`: the primary session -/
  | mainConnection
  /-- error: non-blocking session and no stored connection params -/
  | errNoParamsNonBlocking
  /-- error: active terminal sessions and no stored connection params -/
  | errNoParamsTerminals
deriving DecidableEq, Repr

/-- The inputs `execute_command`'s routing logic reads:
`!self.terminal_senders.is_empty()`, the session's blocking flag
(`unwrap_or(true)` when there is no session), whether
`last_connection_params` is cached, and whether an attempted independent
execution succeeds (used only on the fallback path). -/
structure ExecCtx where
  has_terminal_sessions : Bool
  session_blocking : Bool
  has_independent_params : Bool
  independent_succeeds : Bool
deriving DecidableEq, Repr

/-- The routing decisions of `SSHManager::execute_command`, in source order:
a non-blocking session forces the independent connection (or errors without
params); active terminal sessions force the independent connection (or error
without params); otherwise prefer the independent connection but fall back
to the main connection if it fails or no params are cached. -/
def execute_command (c : ExecCtx) : ExecRoute :=
  if !c.session_blocking then
    if !c.has_independent_params then .errNoParamsNonBlocking
    else .independent
  else if c.has_terminal_sessions then
    if !c.has_independent_params then .errNoParamsTerminals
    else .independent
  else if c.has_independent_params then
    if c.independent_succeeds then .independent else .mainConnection
  else .mainConnection

-- worker reorders: [800 bytes, 600 bytes, 100 bytes] is written as A, C, B
example :
    terminalWorkerWritten 3 [[1, 1], [2, 2, 2], [3]] [] = [1, 1, 2, 2, 2, 3] := by decide

/-! ## Claim C10: `resize_terminal` is a frame-preserving no-op -/

/-- C10: for every open terminal, `resize_terminal` returns success while
leaving all manager state unchanged, and the requested dimensions are never
applied anywhere (the call's outcome is independent of them); for an id with
no registered session it returns the not-found error. -/
theorem resize_terminal_noop (s : ManagerState) (id : String) (cols rows : Nat) :
    (resize_terminal s id cols rows).2 = s
    ∧ ((resize_terminal s id cols rows).1 = .ok () ↔ session_key id ∈ s.active_sessions)
    ∧ ((resize_terminal s id cols rows).1 = .error .sessionNotFound ↔
        session_key id ∉ s.active_sessions)
    ∧ (∀ cols' rows', resize_terminal s id cols rows = resize_terminal s id cols' rows') := by
  unfold resize_terminal
  by_cases h : session_key id ∈ s.active_sessions <;>
    simp [List.elem_iff, h]

/-! ## Claim C8: `execute_command` never touches the main connection while
terminals are open -/

/-- C8: whenever at least one interactive terminal session is registered,
`execute_command` never routes to the main (primary) connection: it either
runs the command on a fresh independent connection built from the cached
connection parameters, or fails when no parameters are cached. -/
theorem execute_command_no_main_with_terminals (c : ExecCtx)
    (h : c.has_terminal_sessions = true) :
    execute_command c ≠ .mainConnection
    ∧ (c.has_independent_params = true → execute_command c = .independent)
    ∧ (c.has_independent_params = false →
        execute_command c = .errNoParamsNonBlocking ∨
          execute_command c = .errNoParamsTerminals) := by
  rcases c with ⟨ht, sb, ip, isucc⟩
  subst h
  cases sb <;> cases ip <;> cases isucc <;> decide

/-- Witness for C8 at a concrete context. -/
theorem execute_command_no_main_with_terminals_witness :
    execute_command ⟨true, true, true, true⟩ ≠ .mainConnection :=
  (execute_command_no_main_with_terminals ⟨true, true, true, true⟩ rfl).1

/-! ## Claim C5: `adjust_window` unblocking condition -/

/-- A `Blocked` controller with an exhausted window and 5 unacknowledged bytes. -/
def blockedState : ControllerState :=
  { initialState with flow_state := .Blocked, window_size := 0, bytes_sent := 5 }

/-- C5 counterexample: with the controller `Blocked`, `window_size = 0` and
5 unacknowledged bytes, `adjust_window 3` moves the state to `Normal` even
though the resulting available window (`3 - 5`, saturating) is `0` — the
claim would require the state to stay `Blocked`. -/
theorem adjust_window_unblocks_at_zero_available :
    (adjust_window blockedState 3).flow_state = .Normal
    ∧ get_available_window (adjust_window blockedState 3) = 0 := by decide

/-- C5 amended: from `Blocked`, `adjust_window` moves to `Normal` exactly when
the resulting `window_size` field (not the available window) is positive, and
stays `Blocked` otherwise. -/
theorem adjust_window_unblock_iff (s : ControllerState) (n : Nat)
    (h : s.flow_state = .Blocked) :
    ((adjust_window s n).flow_state = .Normal ↔ 0 < (adjust_window s n).window_size)
    ∧ (¬ 0 < (adjust_window s n).window_size → (adjust_window s n).flow_state = .Blocked) := by
  unfold adjust_window
  by_cases hw : 0 < min (s.window_size + n) (U32_LIMIT - 1) <;> simp [h, hw]

/-- Witness for C5's amended theorem at a concrete blocked state. -/
theorem adjust_window_unblock_iff_witness :
    (adjust_window ({ initialState with flow_state := .Blocked, window_size := 0 }) 7).flow_state
      = .Normal :=
  (adjust_window_unblock_iff ({ initialState with flow_state := .Blocked, window_size := 0 }) 7
    rfl).1.mpr (by decide)

/-! ## Claim C9: closing a terminal twice -/

/-- A manager with one open terminal `t1`. -/
def oneTerminalState : ManagerState := ⟨[session_key "t1"], [session_key "t1"]⟩

/-- C9 counterexample: closing terminal `t1` succeeds, but closing it a
second time returns the not-found error — not the claimed no-op success. -/
theorem close_terminal_session_second_close_errors :
    (close_terminal_session oneTerminalState "t1").1 = .ok ()
    ∧ (close_terminal_session (close_terminal_session oneTerminalState "t1").2 "t1").1 =
        .error .sessionNotFound := by decide

/-- The state `close_terminal_session` leaves behind: both map entries are
removed regardless of which branch produced the result. -/
theorem close_terminal_session_state (s : ManagerState) (id : String) :
    (close_terminal_session s id).2 =
      ⟨s.terminal_senders.erase (session_key id), s.active_sessions.erase (session_key id)⟩ := by
  simp only [close_terminal_session]
  split
  · rfl
  · split <;> rfl

/-- C9 amended: closing a terminal that was never opened returns the
not-found error; closing an open terminal succeeds; but a second close of
the same terminal is not a no-op success — it returns the not-found error
again (the call only reports success when the session record, or at least
the sender, was still present). -/
theorem close_terminal_session_spec (s : ManagerState) (id : String)
    (hnd1 : s.terminal_senders.Nodup) (hnd2 : s.active_sessions.Nodup) :
    ((session_key id ∉ s.terminal_senders ∧ session_key id ∉ s.active_sessions) →
        (close_terminal_session s id).1 = .error .sessionNotFound)
    ∧ (session_key id ∈ s.active_sessions → (close_terminal_session s id).1 = .ok ())
    ∧ (close_terminal_session (close_terminal_session s id).2 id).1 =
        .error .sessionNotFound := by
  refine ⟨fun h => ?_, fun h => ?_, ?_⟩
  · unfold close_terminal_session
    simp [List.elem_iff, h.1, h.2]
  · unfold close_terminal_session
    simp [List.elem_iff, h]
  · rw [close_terminal_session_state]
    unfold close_terminal_session
    have h1 : session_key id ∉ s.terminal_senders.erase (session_key id) :=
      fun hm => ((hnd1.mem_erase_iff).1 hm).1 rfl
    have h2 : session_key id ∉ s.active_sessions.erase (session_key id) :=
      fun hm => ((hnd2.mem_erase_iff).1 hm).1 rfl
    simp [List.elem_iff, h1, h2]

/-- Witness for C9's amended theorem on a concrete one-terminal manager. -/
theorem close_terminal_session_spec_witness :
    (close_terminal_session oneTerminalState "t1").1 = .ok () :=
  (close_terminal_session_spec oneTerminalState "t1" (by decide) (by decide)).2.1 (by decide)

/-! ## Claim C7: exponential backoff on the draining signal -/

/-- A channel that always fails with an error whose message contains
"draining incoming flow". -/
def drainingChan : Chan := fun _ _ => .ioError true false false false

/-- A controller holding one fresh Normal entry that has already been
retried 62 times. -/
def retry62State : ControllerState :=
  { initialState with input_buffer := [⟨[65], 0, .Normal, 62⟩] }

/-- C7 counterexample: at retry count 63 (reachable, since the maximum is
100) the computed backoff is `50 * 2^63` wrapped in `u64`, which is `0`, so
the engine sleeps 0 ms where the claim demands
`min(1000, 50·2^63) = 1000` ms. -/
theorem process_input_backoff_wraps_to_zero :
    (process_input defaultConfig retry62State 0 drainingChan).sleeps = [0]
    ∧ (process_input defaultConfig retry62State 0 drainingChan).state.flow_state = .Draining
    ∧ (process_input defaultConfig retry62State 0 drainingChan).state.input_buffer =
        [⟨[65], 0, .Normal, 63⟩]
    ∧ min 1000 (50 * 2 ^ 63) = 1000 := by decide

/-- C7 amended: on a write failure carrying the peer's "draining incoming
flow" signal, `process_input` enters `Draining`, increments the entry's
retry counter, and sleeps `min(1000, (50·2^retry) mod 2^64)` ms — which
equals the claimed `min(1000, 50·2^retry)` for retry counts up to 62, but is
0 ms from retry count 63 on because the `u64` multiplication overflows. -/
theorem process_input_draining_spec
    (cfg : Config) (s : ControllerState) (now : Nat) (chan : Chan)
    (e : BufferedInput) (rest : List BufferedInput)
    (hfs : s.flow_state = .Normal)
    (hbuf : s.input_buffer = e :: rest)
    (hstale : e.is_stale now cfg.drain_timeout = false)
    (hretry : e.retry_count < cfg.max_retry_count)
    (hcw : can_write s e.data.length = true)
    (hchan : chan 0 (e.data.take (min e.data.length (get_available_window s))) =
        .ioError true false false false) :
    (process_input cfg s now chan).sleeps = [backoff_ms (e.retry_count + 1)]
    ∧ (process_input cfg s now chan).state.flow_state = .Draining
    ∧ (process_input cfg s now chan).state.input_buffer =
        { e with retry_count := e.retry_count + 1 } :: rest
    ∧ (∀ r, r ≤ 62 → backoff_ms r = min 1000 (50 * 2 ^ r))
    ∧ (∀ r, 63 ≤ r → backoff_ms r = 0) := by
  have havail : get_available_window s ≠ 0 := by
    unfold can_write at hcw
    simp only [Bool.and_eq_true, decide_eq_true_eq] at hcw
    omega
  have hretry' : ¬ cfg.max_retry_count ≤ e.retry_count := by omega
  have hmain :
      process_input cfg s now chan =
        ⟨.ok 0,
          { s with input_buffer := { e with retry_count := e.retry_count + 1 } :: rest,
                   flow_state := .Draining },
          [backoff_ms (e.retry_count + 1)], [e], [], 0⟩ := by
    unfold process_input
    rw [hfs]
    simp only [reduceCtorEq, if_false, reduceIte, hbuf]
    unfold processLoop
    rw [hstale]
    simp only [Bool.false_eq_true, if_false, hretry', hcw, not_true, if_false]
    unfold write_with_flow_control
    rw [if_neg havail]
    simp only [hchan]
    rfl
  refine ⟨by rw [hmain], by rw [hmain], by rw [hmain], ?_, ?_⟩
  · decide
  · intro r hr
    rcases Nat.lt_or_ge r 64 with h | h
    · have hr63 : r = 63 := by omega
      subst hr63
      decide
    · have hdvd : (2 : Nat) ^ 64 ∣ 2 ^ r := pow_dvd_pow 2 h
      have hmod : 2 ^ r % U64_LIMIT = 0 := by
        unfold U64_LIMIT
        exact Nat.dvd_iff_mod_eq_zero.mp hdvd
      unfold backoff_ms
      rw [hmod]
      simp

/-- Witness for C7's amended theorem: first draining failure of a fresh
entry sleeps `backoff_ms 1 = 100` ms. -/
theorem process_input_draining_spec_witness :
    (process_input defaultConfig
        ({ initialState with input_buffer := [⟨[65], 0, .Normal, 0⟩] }) 0
        drainingChan).sleeps = [100] := by
  have h := process_input_draining_spec defaultConfig
    ({ initialState with input_buffer := [⟨[65], 0, .Normal, 0⟩] }) 0 drainingChan
    ⟨[65], 0, .Normal, 0⟩ [] rfl rfl (by decide) (by decide) (by decide) rfl
  simpa using h.1

/-! ## Claim C6: when buffered entries can disappear -/

/-- "The payload survives the call": some buffered entry carries the same
data, creation instant and priority, with an equal-or-larger retry count. -/
def persistsIn (e : BufferedInput) (buf : List BufferedInput) : Prop :=
  ∃ e' ∈ buf, e'.data = e.data ∧ e'.timestamp = e.timestamp ∧
    e'.priority = e.priority ∧ e.retry_count ≤ e'.retry_count

/-- Every entry fed to the processing loop either survives in `kept`, was
successfully written, was dropped as stale or over the retry limit, or the
loop ended in the fatal (queue-clearing) branch. -/
theorem processLoop_removal (cfg : Config) (now : Nat) (snap : FlowControlState)
    (chan : Chan) (buf : List BufferedInput) :
    ∀ (s : ControllerState) (idx : Nat) (e : BufferedInput), e ∈ buf →
      (processLoop cfg now snap chan buf s idx).fatal.isSome = true
      ∨ e ∈ (processLoop cfg now snap chan buf s idx).writtenE
      ∨ e.is_stale now cfg.drain_timeout = true
      ∨ cfg.max_retry_count ≤ e.retry_count
      ∨ persistsIn e (processLoop cfg now snap chan buf s idx).kept := by
  induction buf with
  | nil => intro s idx e he; cases he
  | cons f rest ih =>
    intro s idx e he
    simp only [processLoop]
    by_cases hst : f.is_stale now cfg.drain_timeout = true
    · simp only [hst, if_true]
      rcases List.mem_cons.1 he with rfl | he'
      · exact Or.inr (Or.inr (Or.inl hst))
      · exact ih s idx e he'
    · simp only [hst, if_false, Bool.false_eq_true]
      by_cases hrt : cfg.max_retry_count ≤ f.retry_count
      · simp only [hrt, if_true]
        rcases List.mem_cons.1 he with rfl | he'
        · exact Or.inr (Or.inr (Or.inr (Or.inl hrt)))
        · exact ih s idx e he'
      · simp only [hrt, if_false]
        by_cases hcw : can_write s f.data.length = true
        · simp only [hcw, not_true, if_false]
          rcases hw : write_with_flow_control s f.data chan idx with ⟨res, s2, idx2⟩
          cases res with
          | ok n =>
            simp only [hw]
            rcases List.mem_cons.1 he with rfl | he'
            · exact Or.inr (Or.inl (List.mem_cons_self _ _))
            · rcases ih _ idx2 e he' with h | h | h | h | h
              · exact Or.inl h
              · exact Or.inr (Or.inl (List.mem_cons_of_mem _ h))
              · exact Or.inr (Or.inr (Or.inl h))
              · exact Or.inr (Or.inr (Or.inr (Or.inl h)))
              · exact Or.inr (Or.inr (Or.inr (Or.inr h)))
          | error err =>
            simp only [hw]
            by_cases hd : err.containsDraining = true
            · simp only [hd, if_true]
              rcases List.mem_cons.1 he with rfl | he'
              · exact Or.inr (Or.inr (Or.inr (Or.inr
                  ⟨_, List.mem_cons_self _ _, rfl, rfl, rfl, Nat.le_succ _⟩)))
              · exact Or.inr (Or.inr (Or.inr (Or.inr
                  ⟨e, List.mem_cons_of_mem _ he', rfl, rfl, rfl, le_refl _⟩)))
            · simp only [hd, if_false, Bool.false_eq_true]
              by_cases hwb : err.containsWouldBlock = true
              · simp only [hwb, if_true]
                rcases List.mem_cons.1 he with rfl | he'
                · exact Or.inr (Or.inr (Or.inr (Or.inr
                    ⟨_, List.mem_cons_self _ _, rfl, rfl, rfl, Nat.le_succ _⟩)))
                · exact Or.inr (Or.inr (Or.inr (Or.inr
                    ⟨e, List.mem_cons_of_mem _ he', rfl, rfl, rfl, le_refl _⟩)))
              · simp only [hwb, if_false, Bool.false_eq_true]
                by_cases hft : err.containsFatal = true
                · simp only [hft, if_true]
                  exact Or.inl rfl
                · simp only [hft, if_false, Bool.false_eq_true]
                  rcases List.mem_cons.1 he with rfl | he'
                  · exact Or.inr (Or.inr (Or.inr (Or.inr
                      ⟨_, List.mem_cons_self _ _, rfl, rfl, rfl, Nat.le_succ _⟩)))
                  · rcases ih _ idx2 e he' with h | h | h | h | h
                    · exact Or.inl h
                    · exact Or.inr (Or.inl h)
                    · exact Or.inr (Or.inr (Or.inl h))
                    · exact Or.inr (Or.inr (Or.inr (Or.inl h)))
                    · rcases h with ⟨e', he'', hh⟩
                      exact Or.inr (Or.inr (Or.inr (Or.inr
                        ⟨e', List.mem_cons_of_mem _ he'', hh⟩)))
        · simp only [hcw, not_false_iff, if_true, Bool.false_eq_true]
          exact Or.inr (Or.inr (Or.inr (Or.inr ⟨e, he, rfl, rfl, rfl, le_refl _⟩)))

/-- A `Draining` controller holding one fresh, never-retried Normal entry. -/
def drainingStateWithNormal : ControllerState :=
  { initialState with flow_state := .Draining,
                      input_buffer := [⟨[65], 0, .Normal, 0⟩] }

/-- C6 counterexample: calling `process_input` while the state is `Draining`
silently discards a Normal-priority entry that was never written (no write
was even attempted), is not stale, is far below the retry limit, and hit no
fatal transport error — a removal path the claim's list does not allow. -/
theorem process_input_draining_discards_entry :
    (process_input defaultConfig drainingStateWithNormal 5 (fun _ c => .ok c.length)).state.input_buffer = []
    ∧ (process_input defaultConfig drainingStateWithNormal 5 (fun _ c => .ok c.length)).attempted = []
    ∧ (process_input defaultConfig drainingStateWithNormal 5 (fun _ c => .ok c.length)).result = .ok 0
    ∧ (⟨[65], 0, .Normal, 0⟩ : BufferedInput).is_stale 5 DRAIN_TIMEOUT = false
    ∧ (0 : Nat) < MAX_RETRY_COUNT := by decide

/-- C6 amended: an entry of the input buffer disappears during
`process_input` only when it was successfully written, became stale,
exceeded the retry limit, the whole queue was cleared by a fatal transport
error, or — the path the original claim misses — the call ran in the
`Draining` state and the entry's priority was Normal/Bulk (such entries are
dropped up front by `retain`); moreover `clear_buffer` empties the queue
unconditionally. -/
theorem process_input_removal_reasons
    (cfg : Config) (s : ControllerState) (now : Nat) (chan : Chan)
    (e : BufferedInput) (he : e ∈ s.input_buffer) :
    (persistsIn e (process_input cfg s now chan).state.input_buffer
      ∨ e ∈ (process_input cfg s now chan).writtenE
      ∨ e.is_stale now cfg.drain_timeout = true
      ∨ cfg.max_retry_count ≤ e.retry_count
      ∨ (∃ err, (process_input cfg s now chan).result = .error err)
      ∨ (s.flow_state = .Draining ∧ InputPriority.Normal.val ≤ e.priority.val))
    ∧ (∀ t : ControllerState, (clear_buffer t).input_buffer = []) := by
  refine ⟨?_, fun t => rfl⟩
  unfold process_input
  by_cases hb : s.flow_state = .Blocked
  · simp only [hb, if_true]
    exact Or.inl ⟨e, he, rfl, rfl, rfl, le_refl _⟩
  · simp only [hb, if_false]
    by_cases hd : s.flow_state = .Draining
    · simp only [hd, if_true]
      by_cases hp : e.priority.val ≤ InputPriority.Navigation.val
      · have hmem : e ∈ s.input_buffer.filter
            (fun x => x.priority.val ≤ InputPriority.Navigation.val) := by
          rw [List.mem_filter]
          exact ⟨he, by simpa using hp⟩
        rcases processLoop_removal cfg now .Draining chan _ s 0 e hmem with
          h | h | h | h | h
        · rcases Option.isSome_iff_exists.1 h with ⟨err, herr⟩
          rw [herr]
          exact Or.inr (Or.inr (Or.inr (Or.inr (Or.inl ⟨err, rfl⟩))))
        · rcases hf : (processLoop cfg now .Draining chan
              (s.input_buffer.filter
                (fun x => x.priority.val ≤ InputPriority.Navigation.val)) s 0).fatal with
            _ | err
          · exact Or.inr (Or.inl h)
          · exact Or.inr (Or.inr (Or.inr (Or.inr (Or.inl ⟨err, rfl⟩))))
        · exact Or.inr (Or.inr (Or.inl h))
        · exact Or.inr (Or.inr (Or.inr (Or.inl h)))
        · rcases hf : (processLoop cfg now .Draining chan
              (s.input_buffer.filter
                (fun x => x.priority.val ≤ InputPriority.Navigation.val)) s 0).fatal with
            _ | err
          · exact Or.inl h
          · exact Or.inr (Or.inr (Or.inr (Or.inr (Or.inl ⟨err, rfl⟩))))
      · refine Or.inr (Or.inr (Or.inr (Or.inr (Or.inr ⟨by simp [hd], ?_⟩))))
        revert hp
        cases e.priority <;> decide
    · simp only [hd, if_false]
      rcases processLoop_removal cfg now s.flow_state chan _ s 0 e he with
        h | h | h | h | h
      · rcases Option.isSome_iff_exists.1 h with ⟨err, herr⟩
        rw [herr]
        exact Or.inr (Or.inr (Or.inr (Or.inr (Or.inl ⟨err, rfl⟩))))
      · rcases hf : (processLoop cfg now s.flow_state chan s.input_buffer s 0).fatal with
          _ | err
        · exact Or.inr (Or.inl h)
        · exact Or.inr (Or.inr (Or.inr (Or.inr (Or.inl ⟨err, rfl⟩))))
      · exact Or.inr (Or.inr (Or.inl h))
      · exact Or.inr (Or.inr (Or.inr (Or.inl h)))
      · rcases hf : (processLoop cfg now s.flow_state chan s.input_buffer s 0).fatal with
          _ | err
        · exact Or.inl h
        · exact Or.inr (Or.inr (Or.inr (Or.inr (Or.inl ⟨err, rfl⟩))))

/-- A controller holding one fresh Normal entry. -/
def oneEntryState : ControllerState :=
  { initialState with input_buffer := [⟨[66], 0, .Normal, 0⟩] }

/-- A channel that accepts every chunk in full. -/
def okChan : Chan := fun _ c => .ok c.length

/-- Witness for C6's amended theorem at a concrete state and channel. -/
theorem process_input_removal_reasons_witness :
    (persistsIn ⟨[66], 0, .Normal, 0⟩
        (process_input defaultConfig oneEntryState 0 okChan).state.input_buffer
      ∨ (⟨[66], 0, .Normal, 0⟩ : BufferedInput) ∈
          (process_input defaultConfig oneEntryState 0 okChan).writtenE
      ∨ (⟨[66], 0, .Normal, 0⟩ : BufferedInput).is_stale 0 defaultConfig.drain_timeout = true
      ∨ defaultConfig.max_retry_count ≤ (⟨[66], 0, .Normal, 0⟩ : BufferedInput).retry_count
      ∨ (∃ err, (process_input defaultConfig oneEntryState 0 okChan).result = .error err)
      ∨ (oneEntryState.flow_state = .Draining ∧
          InputPriority.Normal.val ≤ (⟨[66], 0, .Normal, 0⟩ : BufferedInput).priority.val))
    ∧ (∀ t : ControllerState, (clear_buffer t).input_buffer = []) :=
  process_input_removal_reasons defaultConfig oneEntryState 0 okChan
    ⟨[66], 0, .Normal, 0⟩ (List.mem_cons_self _ _)

/-! ## Claim C1: overflow eviction policy of `queue_input` -/

/-- The eviction loop drops a prefix of the buffer, every dropped entry
having priority `>= Normal`. -/
theorem evictLoop_evicts_front_normals (maxBuf : Nat) :
    ∀ buf : List BufferedInput, ∃ k, k ≤ buf.length ∧
      evictLoop maxBuf buf = buf.drop k ∧
      ∀ e ∈ buf.take k, InputPriority.Normal.val ≤ e.priority.val := by
  intro buf
  induction buf with
  | nil => exact ⟨0, by simp, rfl, by simp⟩
  | cons f rest ih =>
    by_cases h : maxBuf ≤ (f :: rest).length ∧ InputPriority.Normal.val ≤ f.priority.val
    · rcases ih with ⟨k, hk, hev, hall⟩
      refine ⟨k + 1, by simpa using Nat.succ_le_succ hk, ?_, ?_⟩
      · rw [evictLoop, if_pos h, List.drop_succ_cons, hev]
      · intro e he
        rw [List.take_succ_cons] at he
        rcases List.mem_cons.1 he with rfl | he'
        · exact h.2
        · exact hall e he'
    · exact ⟨0, by simp, by rw [evictLoop, if_neg h, List.drop_zero], by simp⟩

/-- If the eviction loop stops while the buffer is still at or over a
positive bound, the surviving front entry has priority Control or
Navigation. -/
theorem evictLoop_stuck_front (maxBuf : Nat) (hmax : 1 ≤ maxBuf) :
    ∀ buf : List BufferedInput, maxBuf ≤ (evictLoop maxBuf buf).length →
      ∃ f rest, evictLoop maxBuf buf = f :: rest ∧
        f.priority.val ≤ InputPriority.Navigation.val := by
  intro buf
  induction buf with
  | nil => intro h; simp [evictLoop] at h; omega
  | cons f rest ih =>
    intro h
    by_cases hc : maxBuf ≤ (f :: rest).length ∧ InputPriority.Normal.val ≤ f.priority.val
    · rw [evictLoop, if_pos hc] at h ⊢
      exact ih h
    · rw [evictLoop, if_neg hc] at h ⊢
      refine ⟨f, rest, rfl, ?_⟩
      rcases Nat.lt_or_ge f.priority.val InputPriority.Normal.val with hlt | hge
      · revert hlt
        cases f.priority <;> decide
      · exact absurd ⟨h, hge⟩ hc

/-- C1 amended: when `queue_input` finds the buffer at the bound it evicts
only a prefix of entries of priority `>= Normal` — eviction stops at the
first Control/Navigation entry, so if any such entry is at the front (as it
always is in a priority-ordered buffer that contains one) no eviction at
all takes place; the call fails with the overflow error exactly when the
front of the surviving buffer is a Control/Navigation entry and the buffer
is still at the bound, and on failure the new entry is not inserted (the
resulting buffer is a suffix of the original). -/
theorem queue_input_overflow_policy (maxBuf : Nat) (buf : List BufferedInput)
    (data : List Nat) (p : InputPriority) (now : Nat) (hmax : 1 ≤ maxBuf) :
    (∃ k, k ≤ buf.length ∧ evictLoop maxBuf buf = buf.drop k ∧
        ∀ e ∈ buf.take k, InputPriority.Normal.val ≤ e.priority.val)
    ∧ ((queue_input maxBuf buf data p now).1 = .error .bufferOverflow →
        maxBuf ≤ buf.length ∧
        ∃ f rest, (queue_input maxBuf buf data p now).2 = f :: rest ∧
          f.priority.val ≤ InputPriority.Navigation.val)
    ∧ ((queue_input maxBuf buf data p now).1 = .error .bufferOverflow →
        (queue_input maxBuf buf data p now).2 <:+ buf) := by
  refine ⟨evictLoop_evicts_front_normals maxBuf buf, ?_, ?_⟩
  · intro herr
    unfold queue_input at herr ⊢
    by_cases hfull : maxBuf ≤ buf.length
    · simp only [if_pos hfull] at herr ⊢
      by_cases hstill : maxBuf ≤ (evictLoop maxBuf buf).length
      · simp only [if_pos hstill]
        exact ⟨hfull, evictLoop_stuck_front maxBuf hmax buf hstill⟩
      · simp only [if_neg hstill] at herr
        simp at herr
    · simp only [if_neg hfull] at herr
      simp at herr
  · intro herr
    unfold queue_input at herr ⊢
    by_cases hfull : maxBuf ≤ buf.length
    · simp only [if_pos hfull] at herr ⊢
      by_cases hstill : maxBuf ≤ (evictLoop maxBuf buf).length
      · simp only [if_pos hstill]
        rcases evictLoop_evicts_front_normals maxBuf buf with ⟨k, _, hev, _⟩
        show evictLoop maxBuf buf <:+ buf
        rw [hev]
        exact List.drop_suffix k buf
      · simp only [if_neg hstill] at herr
        simp at herr
    · simp only [if_neg hfull] at herr
      simp at herr

/-- Witness for C1's amended theorem: a bound-2 buffer fronted by a Control
entry rejects a new Normal entry without evicting the buffered Normal one. -/
theorem queue_input_overflow_policy_witness :
    (queue_input 2 [⟨[3], 0, .Control, 0⟩, ⟨[65], 1, .Normal, 0⟩] [66] .Normal 2).1 =
        .error .bufferOverflow
    ∧ ∃ f rest,
        (queue_input 2 [⟨[3], 0, .Control, 0⟩, ⟨[65], 1, .Normal, 0⟩] [66] .Normal 2).2 =
          f :: rest ∧ f.priority.val ≤ InputPriority.Navigation.val := by
  have h := (queue_input_overflow_policy 2 [⟨[3], 0, .Control, 0⟩, ⟨[65], 1, .Normal, 0⟩]
    [66] .Normal 2 (by decide)).2.1 (by decide)
  exact ⟨by decide, h.2⟩

/-- Replay a list of `(data, priority, now)` requests through `queue_input`. -/
def enqueueAll (maxBuf : Nat) : List (List Nat × InputPriority × Nat) →
    List BufferedInput → List BufferedInput
  | [], buf => buf
  | r :: rs, buf => enqueueAll maxBuf rs (queue_input maxBuf buf r.1 r.2.1 r.2.2).2

def ctrlEntry : BufferedInput := ⟨[3], 0, .Control, 0⟩
def normEntry : BufferedInput := ⟨[7], 0, .Normal, 0⟩

/-- The enqueue sequence of the C1 counterexample: one Control payload
followed by `2^20 - 1` Normal payloads. -/
def c1Reqs : List (List Nat × InputPriority × Nat) :=
  ([3], .Control, 0) :: List.replicate (MAX_BUFFER_SIZE - 1) ([7], .Normal, 0)

/-- The buffer those `2^20` enqueues produce. -/
def c1Buf : List BufferedInput := enqueueAll MAX_BUFFER_SIZE c1Reqs []

theorem insert_normal_replicate (k : Nat) :
    insertByPriority normEntry (List.replicate k normEntry) =
      List.replicate (k + 1) normEntry := by
  induction k with
  | zero => rfl
  | succ k ih =>
    rw [List.replicate_succ, insertByPriority, if_neg (lt_irrefl _), ih,
      ← List.replicate_succ]

theorem insert_normal_ctrl_replicate (k : Nat) :
    insertByPriority normEntry (ctrlEntry :: List.replicate k normEntry) =
      ctrlEntry :: List.replicate (k + 1) normEntry := by
  rw [insertByPriority, if_neg (by decide), insert_normal_replicate]

theorem enqueueAll_norm_replicate :
    ∀ (j k : Nat), k + 1 + j ≤ MAX_BUFFER_SIZE →
      enqueueAll MAX_BUFFER_SIZE (List.replicate j ([7], .Normal, 0))
        (ctrlEntry :: List.replicate k normEntry) =
      ctrlEntry :: List.replicate (k + j) normEntry := by
  intro j
  induction j with
  | zero => intro k _; rfl
  | succ j ih =>
    intro k hk
    have hlen : ¬ MAX_BUFFER_SIZE ≤ (ctrlEntry :: List.replicate k normEntry).length := by
      simp only [List.length_cons, List.length_replicate]
      omega
    have hstep :
        (queue_input MAX_BUFFER_SIZE (ctrlEntry :: List.replicate k normEntry)
          [7] .Normal 0).2 = ctrlEntry :: List.replicate (k + 1) normEntry := by
      unfold queue_input
      simp only [if_neg hlen]
      exact insert_normal_ctrl_replicate k
    rw [List.replicate_succ, enqueueAll, hstep, ih (k + 1) (by omega)]
    have : k + 1 + j = k + (j + 1) := by omega
    rw [this]

theorem c1Buf_eq :
    c1Buf = ctrlEntry :: List.replicate (MAX_BUFFER_SIZE - 1) normEntry := by
  have h0 : (queue_input MAX_BUFFER_SIZE [] [3] .Control 0).2 = [ctrlEntry] := by
    unfold queue_input
    norm_num [MAX_BUFFER_SIZE]
    rfl
  show enqueueAll MAX_BUFFER_SIZE c1Reqs [] = _
  unfold c1Reqs
  rw [enqueueAll, h0]
  have h1 := enqueueAll_norm_replicate (MAX_BUFFER_SIZE - 1) 0
    (by norm_num [MAX_BUFFER_SIZE])
  simpa using h1

/-- The eviction loop leaves a buffer untouched when its front entry is of
priority Control or Navigation. -/
theorem evictLoop_noop_front_ctrl (maxBuf : Nat) (f : BufferedInput)
    (rest : List BufferedInput) (hf : ¬ InputPriority.Normal.val ≤ f.priority.val) :
    evictLoop maxBuf (f :: rest) = f :: rest := by
  rw [evictLoop, if_neg]
  rintro ⟨-, h2⟩
  exact hf h2

/-- `queue_input` on a full buffer on which eviction makes no progress:
overflow error, buffer unchanged. -/
theorem queue_input_full_stuck (maxBuf : Nat) (buf : List BufferedInput)
    (data : List Nat) (p : InputPriority) (now : Nat)
    (hfull : maxBuf ≤ buf.length) (hev : evictLoop maxBuf buf = buf) :
    queue_input maxBuf buf data p now = (.error .bufferOverflow, buf) := by
  unfold queue_input
  rw [if_pos hfull, hev, if_pos hfull]

/-- C1 counterexample: after the reachable enqueue sequence `c1Reqs` the
buffer sits exactly at the bound with a Control entry at the front and
`2^20 - 1` evictable Normal entries behind it; the next Normal enqueue fails
with the overflow error and evicts nothing — although evicting any single
Normal entry would have brought the buffer under the bound, contradicting
the claimed evict-before-failing policy. -/
theorem queue_input_fails_despite_evictable_entries :
    (queue_input MAX_BUFFER_SIZE c1Buf [9] .Normal 1).1 = .error .bufferOverflow
    ∧ (queue_input MAX_BUFFER_SIZE c1Buf [9] .Normal 1).2 = c1Buf
    ∧ c1Buf.length = MAX_BUFFER_SIZE
    ∧ c1Buf = ctrlEntry :: List.replicate (MAX_BUFFER_SIZE - 1) normEntry
    ∧ InputPriority.Normal.val ≤ normEntry.priority.val
    ∧ 0 < MAX_BUFFER_SIZE - 1 := by
  have hlen : c1Buf.length = MAX_BUFFER_SIZE := by
    rw [c1Buf_eq, List.length_cons, List.length_replicate]
    norm_num [MAX_BUFFER_SIZE]
  have hfull : MAX_BUFFER_SIZE ≤ c1Buf.length := le_of_eq hlen.symm
  have hev : evictLoop MAX_BUFFER_SIZE c1Buf = c1Buf := by
    rw [c1Buf_eq]
    exact evictLoop_noop_front_ctrl _ _ _ (by decide)
  have herr : queue_input MAX_BUFFER_SIZE c1Buf [9] .Normal 1 =
      (.error .bufferOverflow, c1Buf) :=
    queue_input_full_stuck MAX_BUFFER_SIZE c1Buf [9] .Normal 1 hfull hev
  exact ⟨by rw [herr], by rw [herr], hlen, c1Buf_eq, by decide, by decide⟩

/-! ## Claim C2: priority ordering and FIFO within equal priority -/

/-- The ordering the input buffer is claimed to maintain: strictly smaller
priority value, or equal priority and strictly earlier enqueue instant. -/
def entryLE (a b : BufferedInput) : Prop :=
  a.priority.val < b.priority.val ∨ (a.priority = b.priority ∧ a.timestamp < b.timestamp)

theorem entryLE_val_le {a b : BufferedInput} (h : entryLE a b) :
    a.priority.val ≤ b.priority.val := by
  rcases h with h | ⟨h, -⟩
  · exact le_of_lt h
  · rw [h]

theorem mem_insertByPriority {x e : BufferedInput} :
    ∀ {l : List BufferedInput}, e ∈ insertByPriority x l → e = x ∨ e ∈ l := by
  intro l
  induction l with
  | nil =>
    intro h
    rcases List.mem_singleton.1 h with rfl
    exact Or.inl rfl
  | cons f rest ih =>
    intro h
    rw [insertByPriority] at h
    split at h
    · rcases List.mem_cons.1 h with rfl | h'
      · exact Or.inl rfl
      · exact Or.inr h'
    · rcases List.mem_cons.1 h with rfl | h'
      · exact Or.inr (List.mem_cons_self _ _)
      · rcases ih h' with h'' | h''
        · exact Or.inl h''
        · exact Or.inr (List.mem_cons_of_mem _ h'')

theorem pairwise_insertByPriority (x : BufferedInput) :
    ∀ (l : List BufferedInput), l.Pairwise entryLE →
      (∀ e ∈ l, e.timestamp < x.timestamp) →
      (insertByPriority x l).Pairwise entryLE := by
  intro l
  induction l with
  | nil => intro _ _; simp [insertByPriority]
  | cons f rest ih =>
    intro hp hx
    rw [insertByPriority]
    rcases List.pairwise_cons.1 hp with ⟨hf, hrest⟩
    split
    · rename_i hlt
      refine List.pairwise_cons.2 ⟨?_, hp⟩
      intro e he
      rcases List.mem_cons.1 he with rfl | he'
      · exact Or.inl hlt
      · exact Or.inl (lt_of_lt_of_le hlt (entryLE_val_le (hf e he')))
    · rename_i hnlt
      refine List.pairwise_cons.2 ⟨?_, ih hrest (fun e he => hx e (List.mem_cons_of_mem _ he))⟩
      intro e he
      rcases mem_insertByPriority he with rfl | he'
      · rcases Nat.lt_or_ge f.priority.val e.priority.val with h | h
        · exact Or.inl h
        · have hev : e.priority.val = f.priority.val := le_antisymm h (Nat.le_of_not_lt hnlt)
          have hpr : f.priority = e.priority := by
            revert hev
            cases f.priority <;> cases e.priority <;> decide
          exact Or.inr ⟨hpr, hx f (List.mem_cons_self _ _)⟩
      · exact hf e he'

/-- Replay `(data, priority)` requests through `queue_input`, stamping each
call with the next value of a strictly increasing clock (the embedding of
`Instant::now()`), starting from `t`. -/
def enqueueFrom (maxBuf : Nat) : Nat → List (List Nat × InputPriority) →
    List BufferedInput → List BufferedInput
  | _, [], buf => buf
  | t, r :: rs, buf => enqueueFrom maxBuf (t + 1) rs (queue_input maxBuf buf r.1 r.2 t).2

/-- The buffer produced by a sequence of `queue_input` calls on a fresh
controller, call `i` happening at instant `i`. -/
def enqueueSeq (maxBuf : Nat) (reqs : List (List Nat × InputPriority)) :
    List BufferedInput :=
  enqueueFrom maxBuf 0 reqs []

/-- The buffer `queue_input` leaves behind is either the post-eviction buffer
(on overflow failure) or that buffer with the new entry inserted. -/
theorem queue_input_buffer_cases (maxBuf : Nat) (buf : List BufferedInput)
    (d : List Nat) (p : InputPriority) (t : Nat) :
    (queue_input maxBuf buf d p t).2 =
        (if maxBuf ≤ buf.length then evictLoop maxBuf buf else buf)
    ∨ (queue_input maxBuf buf d p t).2 =
        insertByPriority ⟨d, t, p, 0⟩
          (if maxBuf ≤ buf.length then evictLoop maxBuf buf else buf) := by
  simp only [queue_input]
  by_cases h1 : maxBuf ≤ buf.length
  · simp only [if_pos h1]
    by_cases h2 : maxBuf ≤ (evictLoop maxBuf buf).length
    · simp only [if_pos h2]
      exact Or.inl trivial
    · simp only [if_neg h2]
      exact Or.inr trivial
  · simp only [if_neg h1]
    exact Or.inr trivial

theorem enqueueFrom_pairwise (maxBuf : Nat) :
    ∀ (reqs : List (List Nat × InputPriority)) (t : Nat) (buf : List BufferedInput),
      buf.Pairwise entryLE → (∀ e ∈ buf, e.timestamp < t) →
      (enqueueFrom maxBuf t reqs buf).Pairwise entryLE := by
  intro reqs
  induction reqs with
  | nil => intro t buf hp _; exact hp
  | cons r rs ih =>
    intro t buf hp hx
    rw [enqueueFrom]
    set b1 := if maxBuf ≤ buf.length then evictLoop maxBuf buf else buf with hb1
    have hb1sub : List.Sublist b1 buf := by
      rw [hb1]
      split
      · rcases evictLoop_evicts_front_normals maxBuf buf with ⟨k, _, hev, _⟩
        rw [hev]
        exact List.drop_sublist k buf
      · exact List.Sublist.refl buf
    have hb1p : b1.Pairwise entryLE := hp.sublist hb1sub
    have hb1x : ∀ e ∈ b1, e.timestamp < t := fun e he => hx e (hb1sub.mem he)
    rcases queue_input_buffer_cases maxBuf buf r.1 r.2 t with hq | hq
    · rw [hq, ← hb1]
      exact ih (t + 1) b1 hb1p (fun e he => Nat.lt_succ_of_lt (hb1x e he))
    · rw [hq, ← hb1]
      refine ih (t + 1) _ (pairwise_insertByPriority _ b1 hb1p hb1x) ?_
      intro e he
      rcases mem_insertByPriority he with rfl | he'
      · exact Nat.lt_succ_self t
      · exact Nat.lt_succ_of_lt (hb1x e he')

/-- Write attempts of the processing loop pick an in-order subsequence of
the buffer it walks. -/
theorem processLoop_attempted_sublist (cfg : Config) (now : Nat)
    (snap : FlowControlState) (chan : Chan) :
    ∀ (buf : List BufferedInput) (s : ControllerState) (idx : Nat),
      List.Sublist (processLoop cfg now snap chan buf s idx).attempted buf := by
  intro buf
  induction buf with
  | nil => intro s idx; exact List.Sublist.refl []
  | cons f rest ih =>
    intro s idx
    simp only [processLoop]
    by_cases hst : f.is_stale now cfg.drain_timeout = true
    · simp only [hst, if_true]
      exact (ih s idx).cons f
    · simp only [hst, if_false, Bool.false_eq_true]
      by_cases hrt : cfg.max_retry_count ≤ f.retry_count
      · simp only [hrt, if_true]
        exact (ih s idx).cons f
      · simp only [hrt, if_false]
        by_cases hcw : can_write s f.data.length = true
        · simp only [hcw, not_true, if_false]
          rcases hw : write_with_flow_control s f.data chan idx with ⟨res, s2, idx2⟩
          cases res with
          | ok n =>
            simp only [hw]
            exact (ih _ idx2).cons₂ f
          | error err =>
            simp only [hw]
            by_cases hd : err.containsDraining = true
            · simp only [hd, if_true]
              exact (List.nil_sublist rest).cons₂ f
            · simp only [hd, if_false, Bool.false_eq_true]
              by_cases hwb : err.containsWouldBlock = true
              · simp only [hwb, if_true]
                exact (List.nil_sublist rest).cons₂ f
              · simp only [hwb, if_false, Bool.false_eq_true]
                by_cases hft : err.containsFatal = true
                · simp only [hft, if_true]
                  exact (List.nil_sublist rest).cons₂ f
                · simp only [hft, if_false, Bool.false_eq_true]
                  exact (ih _ idx2).cons₂ f
        · simp only [hcw, not_false_iff, if_true, Bool.false_eq_true]
          exact List.nil_sublist _

/-- C2: (i) any sequence of `queue_input` calls on a fresh controller leaves
the buffer ordered by non-decreasing priority value, entries of equal
priority ordered by their (strictly increasing) enqueue instants — FIFO
within a priority class; (ii) `process_input` attempts channel writes along
an in-order subsequence of the buffer, i.e. in buffer order. -/
theorem queue_priority_order_invariant :
    (∀ (maxBuf : Nat) (reqs : List (List Nat × InputPriority)),
        (enqueueSeq maxBuf reqs).Pairwise entryLE)
    ∧ (∀ (cfg : Config) (s : ControllerState) (now : Nat) (chan : Chan),
        List.Sublist (process_input cfg s now chan).attempted s.input_buffer) := by
  constructor
  · intro maxBuf reqs
    exact enqueueFrom_pairwise maxBuf reqs 0 [] (List.Pairwise.nil) (by simp)
  · intro cfg s now chan
    unfold process_input
    by_cases hb : s.flow_state = .Blocked
    · simp only [hb, if_true]
      exact List.nil_sublist _
    · simp only [hb, if_false]
      by_cases hd : s.flow_state = .Draining
      · simp only [hd, if_true]
        rcases hf : (processLoop cfg now .Draining chan
            (s.input_buffer.filter
              (fun e => e.priority.val ≤ InputPriority.Navigation.val)) s 0).fatal with
          _ | err
        · exact (processLoop_attempted_sublist cfg now .Draining chan _ s 0).trans
            (List.filter_sublist s.input_buffer)
        · exact (processLoop_attempted_sublist cfg now .Draining chan _ s 0).trans
            (List.filter_sublist s.input_buffer)
      · simp only [hd, if_false]
        rcases hf : (processLoop cfg now s.flow_state chan s.input_buffer s 0).fatal with
          _ | err
        · exact processLoop_attempted_sublist cfg now s.flow_state chan _ s 0
        · exact processLoop_attempted_sublist cfg now s.flow_state chan _ s 0

/-! ## Claim C3: writes never exceed the available window -/

/-- Characterization of a successful `write_with_flow_control` against a
well-behaved channel: the reported count is bounded by the available window
and the counters are updated as in the source. -/
theorem write_ok_spec {s : ControllerState} {data : List Nat} {chan : Chan}
    {idx n : Nat} {s' : ControllerState} {idx' : Nat}
    (hwb : WellBehaved chan)
    (h : write_with_flow_control s data chan idx = (.ok n, s', idx')) :
    n ≤ get_available_window s
    ∧ s' = { s with bytes_sent := (s.bytes_sent + n) % U64_LIMIT,
                    window_size := s.window_size - (n % U32_LIMIT) } := by
  unfold write_with_flow_control at h
  by_cases ha : get_available_window s = 0
  · rw [if_pos ha] at h
    exact absurd (congrArg Prod.fst h) (by simp)
  · rw [if_neg ha] at h
    generalize hg : chan idx (data.take (min data.length (get_available_window s))) = res at h
    cases res with
    | ok m =>
      have hmn : m = n := by
        have := congrArg Prod.fst h
        simpa using this
      subst hmn
      refine ⟨?_, ?_⟩
      · have hb := hwb idx (data.take (min data.length (get_available_window s))) m hg
        rw [List.length_take] at hb
        exact hb.trans (le_trans (Nat.min_le_left _ _) (Nat.min_le_right _ _))
      · have := congrArg (fun q => q.2.1) h
        simpa using this.symm
    | wouldBlock => exact absurd (congrArg Prod.fst h) (by simp)
    | brokenPipe => exact absurd (congrArg Prod.fst h) (by simp)
    | ioError a b c d => exact absurd (congrArg Prod.fst h) (by simp)

/-- Counter arithmetic after one successful write of `n` bytes: on a state
with a `u32`-sized window, a `u64`-sized sent counter and no acknowledged
bytes, the available window shrinks by at least `n`, and the type-size
invariants persist. -/
theorem available_after_write (s : ControllerState) (n : Nat)
    (hwin : s.window_size < U32_LIMIT) (hsent : s.bytes_sent < U64_LIMIT)
    (hack : s.bytes_acknowledged = 0) (hn : n ≤ get_available_window s) :
    get_available_window
        ({ s with
            bytes_sent := (s.bytes_sent + n) % U64_LIMIT,
            window_size := s.window_size - (n % U32_LIMIT) }) + n ≤
      get_available_window s
    ∧ s.window_size - (n % U32_LIMIT) < U32_LIMIT
    ∧ (s.bytes_sent + n) % U64_LIMIT < U64_LIMIT
    ∧ ((s.bytes_sent + n) % U64_LIMIT) + (s.window_size - (n % U32_LIMIT)) ≤
        s.bytes_sent + s.window_size := by
  have h32 : U32_LIMIT = 4294967296 := by norm_num [U32_LIMIT]
  have h64 : U64_LIMIT = 18446744073709551616 := by norm_num [U64_LIMIT]
  unfold get_available_window at hn ⊢
  simp only [hack, h32, h64] at hn hwin hsent ⊢
  omega

/-- The total `n` reported by the successful writes of one processing-loop
run is bounded by the available window at entry (and the counter invariants
are preserved, with `sent + window` never increasing). -/
theorem processLoop_written_bound (cfg : Config) (now : Nat)
    (snap : FlowControlState) (chan : Chan) (hwb : WellBehaved chan) :
    ∀ (buf : List BufferedInput) (s : ControllerState) (idx : Nat),
      s.window_size < U32_LIMIT → s.bytes_sent < U64_LIMIT →
      s.bytes_acknowledged = 0 →
      (processLoop cfg now snap chan buf s idx).written ≤ get_available_window s
      ∧ (processLoop cfg now snap chan buf s idx).st.window_size < U32_LIMIT
      ∧ (processLoop cfg now snap chan buf s idx).st.bytes_sent < U64_LIMIT
      ∧ (processLoop cfg now snap chan buf s idx).st.bytes_acknowledged = 0
      ∧ (processLoop cfg now snap chan buf s idx).st.bytes_sent +
          (processLoop cfg now snap chan buf s idx).st.window_size ≤
          s.bytes_sent + s.window_size := by
  intro buf
  induction buf with
  | nil =>
    intro s idx hwin hsent hack
    exact ⟨Nat.zero_le _, hwin, hsent, hack, le_refl _⟩
  | cons f rest ih =>
    intro s idx hwin hsent hack
    simp only [processLoop]
    by_cases hst : f.is_stale now cfg.drain_timeout = true
    · simp only [hst, if_true]
      exact ih s idx hwin hsent hack
    · simp only [hst, if_false, Bool.false_eq_true]
      by_cases hrt : cfg.max_retry_count ≤ f.retry_count
      · simp only [hrt, if_true]
        exact ih s idx hwin hsent hack
      · simp only [hrt, if_false]
        by_cases hcw : can_write s f.data.length = true
        · simp only [hcw, not_true, if_false]
          rcases hw : write_with_flow_control s f.data chan idx with ⟨res, s2, idx2⟩
          cases res with
          | ok n =>
            simp only [hw]
            rcases write_ok_spec hwb hw with ⟨hn, hs2⟩
            rcases available_after_write s n hwin hsent hack hn with
              ⟨hdec, hwin', hsent', hsum⟩
            subst hs2
            have ihx := ih ({ s with
              flow_state := if snap ≠ FlowControlState.Normal then FlowControlState.Normal
                else s.flow_state,
              window_size := s.window_size - (n % U32_LIMIT),
              bytes_sent := (s.bytes_sent + n) % U64_LIMIT,
              consecutive_failures := 0,
              last_successful_write := now }) idx2 hwin' hsent' hack
            rcases ihx with ⟨ihw, ihwin, ihsent, ihack, ihsum⟩
            refine ⟨?_, ihwin, ihsent, ihack, le_trans ihsum hsum⟩
            calc n + (processLoop cfg now snap chan rest _ idx2).written
                ≤ n + get_available_window _ := Nat.add_le_add_left ihw n
              _ ≤ get_available_window s := by
                  rw [Nat.add_comm]
                  exact hdec
          | error err =>
            have hs2 : s2 = s := by
              unfold write_with_flow_control at hw
              by_cases ha : get_available_window s = 0
              · rw [if_pos ha] at hw
                exact (congrArg (fun q => q.2.1) hw).symm
              · rw [if_neg ha] at hw
                generalize chan idx (f.data.take (min f.data.length
                  (get_available_window s))) = res at hw
                cases res with
                | ok m => exact absurd (congrArg Prod.fst hw) (by simp)
                | wouldBlock => exact (congrArg (fun q => q.2.1) hw).symm
                | brokenPipe => exact (congrArg (fun q => q.2.1) hw).symm
                | ioError a b c d => exact (congrArg (fun q => q.2.1) hw).symm
            subst hs2
            simp only [hw]
            by_cases hd : err.containsDraining = true
            · simp only [hd, if_true]
              exact ⟨Nat.zero_le _, hwin, hsent, hack, le_refl _⟩
            · simp only [hd, if_false, Bool.false_eq_true]
              by_cases hwbk : err.containsWouldBlock = true
              · simp only [hwbk, if_true]
                exact ⟨Nat.zero_le _, hwin, hsent, hack, le_refl _⟩
              · simp only [hwbk, if_false, Bool.false_eq_true]
                by_cases hft : err.containsFatal = true
                · simp only [hft, if_true]
                  exact ⟨Nat.zero_le _, hwin, hsent, hack, le_refl _⟩
                · simp only [hft, if_false, Bool.false_eq_true]
                  exact ih _ idx2 hwin hsent hack
        · simp only [hcw, not_false_iff, if_true, Bool.false_eq_true]
          exact ⟨Nat.zero_le _, hwin, hsent, hack, le_refl _⟩

/-- One `process_input` call: the bytes written never exceed the available
window at entry, and the counter invariants persist with `sent + window`
non-increasing. -/
theorem process_input_written_le_available (cfg : Config) (s : ControllerState)
    (now : Nat) (chan : Chan) (hwb : WellBehaved chan)
    (hwin : s.window_size < U32_LIMIT) (hsent : s.bytes_sent < U64_LIMIT)
    (hack : s.bytes_acknowledged = 0) :
    (process_input cfg s now chan).writtenTotal ≤ get_available_window s
    ∧ (process_input cfg s now chan).state.window_size < U32_LIMIT
    ∧ (process_input cfg s now chan).state.bytes_sent < U64_LIMIT
    ∧ (process_input cfg s now chan).state.bytes_acknowledged = 0
    ∧ (process_input cfg s now chan).state.bytes_sent +
        (process_input cfg s now chan).state.window_size ≤
        s.bytes_sent + s.window_size := by
  unfold process_input
  by_cases hb : s.flow_state = .Blocked
  · simp only [hb, if_true]
    exact ⟨Nat.zero_le _, hwin, hsent, hack, le_refl _⟩
  · simp only [hb, if_false]
    by_cases hd : s.flow_state = .Draining
    · simp only [hd, if_true]
      obtain ⟨h1, h2, h3, h4, h5⟩ := processLoop_written_bound cfg now .Draining chan hwb
        (s.input_buffer.filter (fun e => e.priority.val ≤ InputPriority.Navigation.val))
        s 0 hwin hsent hack
      rcases hf : (processLoop cfg now .Draining chan
          (s.input_buffer.filter
            (fun e => e.priority.val ≤ InputPriority.Navigation.val)) s 0).fatal with
        _ | err
      · exact ⟨h1, h2, h3, h4, h5⟩
      · exact ⟨h1, h2, h3, h4, h5⟩
    · simp only [hd, if_false]
      obtain ⟨h1, h2, h3, h4, h5⟩ := processLoop_written_bound cfg now s.flow_state chan hwb
        s.input_buffer s 0 hwin hsent hack
      rcases hf : (processLoop cfg now s.flow_state chan s.input_buffer s 0).fatal with
        _ | err
      · exact ⟨h1, h2, h3, h4, h5⟩
      · exact ⟨h1, h2, h3, h4, h5⟩

/-- Total of the window increments a trace of operations advertises. -/
def sumAdjust : List Op → Nat
  | [] => 0
  | .adjust n :: rest => n + sumAdjust rest
  | _ :: rest => sumAdjust rest

/-- Well-behavedness of the channels an operation carries. -/
def OpWB : Op → Prop
  | .process _ chan => WellBehaved chan
  | _ => True

/-- Counter invariant along any trace: the `u32`/`u64` size bounds persist,
`bytes_acknowledged` stays 0, and `bytes_sent + window_size` grows at most by
the sum of the `adjust_window` increments. -/
theorem run_counter_invariant (cfg : Config) :
    ∀ (ops : List Op) (s : ControllerState),
      (∀ op ∈ ops, OpWB op) →
      s.window_size < U32_LIMIT → s.bytes_sent < U64_LIMIT →
      s.bytes_acknowledged = 0 →
      (run cfg s ops).window_size < U32_LIMIT
      ∧ (run cfg s ops).bytes_sent < U64_LIMIT
      ∧ (run cfg s ops).bytes_acknowledged = 0
      ∧ (run cfg s ops).bytes_sent + (run cfg s ops).window_size ≤
          s.bytes_sent + s.window_size + sumAdjust ops := by
  intro ops
  induction ops with
  | nil =>
    intro s _ hwin hsent hack
    exact ⟨hwin, hsent, hack, Nat.le_add_right _ _⟩
  | cons op rest ih =>
    intro s hops hwin hsent hack
    have hop : OpWB op := hops op (List.mem_cons_self _ _)
    have hrest : ∀ o ∈ rest, OpWB o := fun o ho => hops o (List.mem_cons_of_mem _ ho)
    show (run cfg (step cfg s op) rest).window_size < U32_LIMIT ∧ _
    cases op with
    | queue d p t =>
      obtain ⟨a, b, c, hsum⟩ := ih (step cfg s (.queue d p t)) hrest hwin hsent hack
      refine ⟨a, b, c, ?_⟩
      calc (run cfg (step cfg s (.queue d p t)) rest).bytes_sent +
            (run cfg (step cfg s (.queue d p t)) rest).window_size
          ≤ s.bytes_sent + s.window_size + sumAdjust rest := hsum
        _ = s.bytes_sent + s.window_size + sumAdjust (Op.queue d p t :: rest) := rfl
    | process t chan =>
      obtain ⟨p1, p2, p3, p4, p5⟩ :=
        process_input_written_le_available cfg s t chan hop hwin hsent hack
      obtain ⟨a, b, c, hsum⟩ := ih (step cfg s (.process t chan)) hrest p2 p3 p4
      refine ⟨a, b, c, ?_⟩
      calc (run cfg (step cfg s (.process t chan)) rest).bytes_sent +
            (run cfg (step cfg s (.process t chan)) rest).window_size
          ≤ (step cfg s (.process t chan)).bytes_sent +
              (step cfg s (.process t chan)).window_size + sumAdjust rest := hsum
        _ ≤ s.bytes_sent + s.window_size + sumAdjust rest :=
            Nat.add_le_add_right p5 _
        _ = s.bytes_sent + s.window_size + sumAdjust (Op.process t chan :: rest) := rfl
    | adjust n =>
      have hwin' : (step cfg s (.adjust n)).window_size < U32_LIMIT := by
        show min (s.window_size + n) (U32_LIMIT - 1) < U32_LIMIT
        have : min (s.window_size + n) (U32_LIMIT - 1) ≤ U32_LIMIT - 1 :=
          Nat.min_le_right _ _
        have hpos : 0 < U32_LIMIT := by norm_num [U32_LIMIT]
        omega
      obtain ⟨a, b, c, hsum⟩ := ih (step cfg s (.adjust n)) hrest hwin' hsent hack
      refine ⟨a, b, c, ?_⟩
      have hstep : (step cfg s (.adjust n)).bytes_sent +
          (step cfg s (.adjust n)).window_size ≤ s.bytes_sent + s.window_size + n := by
        show s.bytes_sent + min (s.window_size + n) (U32_LIMIT - 1) ≤
          s.bytes_sent + s.window_size + n
        have : min (s.window_size + n) (U32_LIMIT - 1) ≤ s.window_size + n :=
          Nat.min_le_left _ _
        omega
      calc (run cfg (step cfg s (.adjust n)) rest).bytes_sent +
            (run cfg (step cfg s (.adjust n)) rest).window_size
          ≤ (step cfg s (.adjust n)).bytes_sent +
              (step cfg s (.adjust n)).window_size + sumAdjust rest := hsum
        _ ≤ s.bytes_sent + s.window_size + n + sumAdjust rest :=
            Nat.add_le_add_right hstep _
        _ = s.bytes_sent + s.window_size + sumAdjust (Op.adjust n :: rest) := by
            show _ = s.bytes_sent + s.window_size + (n + sumAdjust rest)
            omega
    | clear =>
      obtain ⟨a, b, c, hsum⟩ := ih (step cfg s .clear) hrest hwin hsent hack
      refine ⟨a, b, c, ?_⟩
      calc (run cfg (step cfg s .clear) rest).bytes_sent +
            (run cfg (step cfg s .clear) rest).window_size
          ≤ s.bytes_sent + s.window_size + sumAdjust rest := hsum
        _ = s.bytes_sent + s.window_size + sumAdjust (Op.clear :: rest) := rfl

/-- C3 amended: (i) in any single `process_input` call against a well-behaved
channel (starting from any state with `u32`/`u64`-sized counters and no
acknowledged bytes, as on every reachable state), the total bytes written
never exceed the available window at the start of the call; (ii) along any
trace of operations from the initial controller, `bytes_sent −
bytes_acknowledged` never exceeds the initial window size plus the sum of
all `adjust_window` increments — but it is not bounded by the current
`window_size`, which shrinks with every write while `bytes_sent` grows. -/
theorem flow_window_bounds :
    (∀ (cfg : Config) (s : ControllerState) (now : Nat) (chan : Chan),
        WellBehaved chan → s.window_size < U32_LIMIT → s.bytes_sent < U64_LIMIT →
        s.bytes_acknowledged = 0 →
        (process_input cfg s now chan).writtenTotal ≤ get_available_window s)
    ∧ (∀ (cfg : Config) (ops : List Op),
        (∀ op ∈ ops, OpWB op) →
        (run cfg initialState ops).bytes_sent -
            (run cfg initialState ops).bytes_acknowledged ≤
          INITIAL_WINDOW_SIZE + sumAdjust ops) := by
  constructor
  · intro cfg s now chan hwb hwin hsent hack
    exact (process_input_written_le_available cfg s now chan hwb hwin hsent hack).1
  · intro cfg ops hops
    obtain ⟨hwin, hsent, hack, hsum⟩ := run_counter_invariant cfg ops initialState hops
      (by norm_num [initialState, INITIAL_WINDOW_SIZE, U32_LIMIT])
      (by norm_num [initialState, U64_LIMIT]) rfl
    have h0 : initialState.bytes_sent = 0 := rfl
    have h1 : initialState.window_size = INITIAL_WINDOW_SIZE := rfl
    rw [h0, h1] at hsum
    omega

/-- Witness for C3's amended theorem: one call on the fresh controller and
the empty trace. -/
theorem flow_window_bounds_witness :
    (process_input defaultConfig initialState 0 okChan).writtenTotal ≤
        get_available_window initialState
    ∧ (run defaultConfig initialState []).bytes_sent -
        (run defaultConfig initialState []).bytes_acknowledged ≤
      INITIAL_WINDOW_SIZE + sumAdjust [] := by
  constructor
  · exact flow_window_bounds.1 defaultConfig initialState 0 okChan
      (fun i c n h => by cases h; exact le_refl _)
      (by norm_num [initialState, INITIAL_WINDOW_SIZE, U32_LIMIT])
      (by norm_num [initialState, U64_LIMIT]) rfl
  · exact flow_window_bounds.2 defaultConfig []
      (fun op h => absurd h (List.not_mem_nil op))

/-- A `process_input` call whose single fresh entry is written successfully:
counters are updated by the reported count and the entry leaves the buffer. -/
theorem process_input_single_ok
    (cfg : Config) (s : ControllerState) (now : Nat) (chan : Chan)
    (e : BufferedInput) (n : Nat)
    (hfs : s.flow_state = .Normal)
    (hbuf : s.input_buffer = [e])
    (hstale : e.is_stale now cfg.drain_timeout = false)
    (hretry : e.retry_count < cfg.max_retry_count)
    (hcw : can_write s e.data.length = true)
    (hchan : chan 0 (e.data.take (min e.data.length (get_available_window s))) = .ok n) :
    (process_input cfg s now chan).state.bytes_sent = (s.bytes_sent + n) % U64_LIMIT
    ∧ (process_input cfg s now chan).state.window_size =
        s.window_size - (n % U32_LIMIT)
    ∧ (process_input cfg s now chan).state.bytes_acknowledged = s.bytes_acknowledged
    ∧ (process_input cfg s now chan).state.input_buffer = []
    ∧ (process_input cfg s now chan).result = .ok n := by
  have havail : get_available_window s ≠ 0 := by
    unfold can_write at hcw
    simp only [Bool.and_eq_true, decide_eq_true_eq] at hcw
    omega
  have hretry' : ¬ cfg.max_retry_count ≤ e.retry_count := by omega
  have hmain :
      process_input cfg s now chan =
        ⟨.ok n,
          { s with input_buffer := [],
                   bytes_sent := (s.bytes_sent + n) % U64_LIMIT,
                   window_size := s.window_size - (n % U32_LIMIT),
                   consecutive_failures := 0,
                   last_successful_write := now },
          [], [e], [e], n⟩ := by
    unfold process_input
    rw [hfs]
    simp only [reduceCtorEq, if_false, reduceIte, hbuf]
    unfold processLoop
    rw [hstale]
    simp only [Bool.false_eq_true, if_false, hretry', hcw, not_true, if_false]
    unfold write_with_flow_control
    rw [if_neg havail]
    simp only [hchan]
    unfold processLoop
    simp [hfs]
  exact ⟨by rw [hmain], by rw [hmain], by rw [hmain], by rw [hmain], by rw [hmain]⟩

/-- Payload size of the C3 counterexample: just over half the window. -/
def BIGLEN : Nat := 2 ^ 19 + 1

def bigEntry : BufferedInput := ⟨List.replicate BIGLEN 0, 0, .Normal, 0⟩

/-- A channel accepting the full chunk of the counterexample write. -/
def bigChan : Chan := fun _ _ => .ok BIGLEN

/-- The controller after enqueueing the counterexample payload. -/
def c3Mid : ControllerState := { initialState with input_buffer := [bigEntry] }

/-- The trace of the C3 counterexample: enqueue one `2^19 + 1`-byte Normal
payload on the fresh controller, then drain it with a channel that accepts
the whole chunk. -/
def c3Ops : List Op :=
  [.queue (List.replicate BIGLEN 0) .Normal 0, .process 0 bigChan]

def c3Final : ControllerState := run defaultConfig initialState c3Ops

/-- C3 counterexample: after the two-operation trace `c3Ops`, the
unacknowledged bytes (`2^19 + 1`) exceed the current window size
(`2^19 - 1`), because every write both increments `bytes_sent` and decrements
`window_size` — refuting "`bytes_sent − bytes_acknowledged` never exceeds
the configured window". -/
theorem run_nil (cfg : Config) (s : ControllerState) : run cfg s [] = s := rfl

theorem run_cons (cfg : Config) (s : ControllerState) (op : Op) (ops : List Op) :
    run cfg s (op :: ops) = run cfg (step cfg s op) ops := rfl

theorem step_process_eq (cfg : Config) (s : ControllerState) (t : Nat) (chan : Chan) :
    step cfg s (.process t chan) = (process_input cfg s t chan).state := rfl

theorem sent_exceeds_window_after_write :
    c3Final.window_size < c3Final.bytes_sent - c3Final.bytes_acknowledged
    ∧ c3Final.bytes_sent - c3Final.bytes_acknowledged = BIGLEN
    ∧ c3Final.window_size = INITIAL_WINDOW_SIZE - BIGLEN := by
  have h0 : ¬ (MAX_BUFFER_SIZE ≤ ([] : List BufferedInput).length) := by decide
  have hq : (queue_input MAX_BUFFER_SIZE [] (List.replicate BIGLEN 0) .Normal 0).2 =
      [bigEntry] := by
    unfold queue_input
    simp only [if_neg h0]
    rfl
  have h1 : step defaultConfig initialState
      (.queue (List.replicate BIGLEN 0) .Normal 0) = c3Mid := by
    show ({ initialState with
      input_buffer := (queue_input defaultConfig.max_buffer_size
        initialState.input_buffer (List.replicate BIGLEN 0) .Normal 0).2 } :
        ControllerState) = c3Mid
    rw [show defaultConfig.max_buffer_size = MAX_BUFFER_SIZE from rfl]
    rw [show initialState.input_buffer = ([] : List BufferedInput) from rfl]
    rw [hq]
    rfl
  have h2 : c3Final = (process_input defaultConfig c3Mid 0 bigChan).state := by
    rw [show c3Final = run defaultConfig initialState c3Ops from rfl,
      show c3Ops = [.queue (List.replicate BIGLEN 0) .Normal 0, .process 0 bigChan]
        from rfl,
      run_cons, run_cons, run_nil, h1, step_process_eq]
  have hlen : bigEntry.data.length = BIGLEN := by
    show (List.replicate BIGLEN 0).length = BIGLEN
    rw [List.length_replicate]
  have hcw : can_write c3Mid bigEntry.data.length = true := by
    rw [hlen]
    decide
  obtain ⟨ha, hb, hc, _, _⟩ := process_input_single_ok defaultConfig c3Mid 0 bigChan
    bigEntry BIGLEN rfl rfl (by decide) (by decide) hcw rfl
  rw [h2, ha, hb, hc]
  refine ⟨?_, ?_, ?_⟩ <;>
    norm_num [c3Mid, initialState, BIGLEN, INITIAL_WINDOW_SIZE, U32_LIMIT, U64_LIMIT]

/-! ## Claim C4: byte-for-byte in-order round trip through the terminal worker -/

theorem batchInput_nil (size : Nat) : batchInput [] size = ([], []) := rfl

theorem batchInput_cons_fit (d : List Nat) (rest : List (List Nat)) (size : Nat)
    (h : size + d.length ≤ 1024) :
    batchInput (d :: rest) size =
      (d ++ (batchInput rest (size + d.length)).1, (batchInput rest (size + d.length)).2) := by
  rw [batchInput, if_pos h]

theorem batchInput_cons_nofit (d : List Nat) (rest : List (List Nat)) (size : Nat)
    (h : ¬ size + d.length ≤ 1024) :
    batchInput (d :: rest) size =
      ((batchInput rest size).1, d :: (batchInput rest size).2) := by
  rw [batchInput, if_neg h]

/-- The `data.starts_with(b"\x1b[") || data.starts_with(b"\x1bO")` test of
`classify_input_priority`: the payload opens with ESC `[` or ESC `O`. -/
def isEscSeq : List Nat → Bool
  | a :: b :: _ => a == 0x1B && (b == 0x5B || b == 0x4F)
  | _ => false

/-- `SSHFlowController::classify_input_priority`: empty input is Normal;
a single control byte (Ctrl+C/D/Z, CR, LF, backspace/delete, tab) is
Control — any other single byte falls through; an ANSI escape sequence is
Control; payloads longer than 100 bytes are Bulk; everything else Normal. -/
def classify_input_priority (data : List Nat) : InputPriority :=
  if data.isEmpty then .Normal
  else if data.length = 1 ∧
      data.headD 0 ∈ ([0x03, 0x04, 0x1A, 0x0D, 0x0A, 0x7F, 0x08, 0x09] : List Nat) then
    .Control
  else if isEscSeq data then .Control
  else if 100 < data.length then .Bulk
  else .Normal

example : classify_input_priority [0x03] = .Control := by decide
example : classify_input_priority [0x1B, 0x5B, 0x41] = .Control := by decide
example : classify_input_priority [65, 66] = .Normal := by decide

/-- A run of more than 100 identical non-ESC bytes classifies as `Bulk`. -/
theorem classify_long_replicate (n x : Nat) (hn : 100 < n) (hx : x ≠ 0x1B) :
    classify_input_priority (List.replicate n x) = .Bulk := by
  obtain ⟨m, rfl⟩ : ∃ m, n = m + 2 := ⟨n - 2, by omega⟩
  have hrep : List.replicate (m + 2) x = x :: x :: List.replicate m x := by
    rw [List.replicate_succ, List.replicate_succ]
  rw [hrep]
  have h1 : ¬ ((x :: x :: List.replicate m x).length = 1 ∧
      (x :: x :: List.replicate m x).headD 0 ∈
        ([0x03, 0x04, 0x1A, 0x0D, 0x0A, 0x7F, 0x08, 0x09] : List Nat)) := by
    rintro ⟨hl, -⟩
    rw [List.length_cons, List.length_cons, List.length_replicate] at hl
    omega
  have h2 : isEscSeq (x :: x :: List.replicate m x) = false := by
    show (x == 0x1B && (x == 0x5B || x == 0x4F)) = false
    have hb : (x == 0x1B) = false := by
      cases h : x == 0x1B with
      | false => rfl
      | true => exact absurd (by simpa using h) hx
    rw [hb, Bool.false_and]
  have h3 : 100 < (x :: x :: List.replicate m x).length := by
    rw [List.length_cons, List.length_cons, List.length_replicate]
    omega
  unfold classify_input_priority
  rw [if_neg (by simp : ¬ (x :: x :: List.replicate m x).isEmpty = true),
    if_neg h1, if_neg (by rw [h2]; simp), if_pos h3]

/-- The three payloads of the C4 failing input: 800, 600 and 200 bytes, all
longer than 100 bytes and hence all classified `Bulk` — a
priority-homogeneous sequence. -/
def c4A : List Nat := List.replicate 800 1
def c4B : List Nat := List.replicate 600 2
def c4C : List Nat := List.replicate 200 3

theorem c4A_len : c4A.length = 800 := by
  show (List.replicate 800 1).length = 800
  rw [List.length_replicate]

theorem c4B_len : c4B.length = 600 := by
  show (List.replicate 600 2).length = 600
  rw [List.length_replicate]

theorem c4C_len : c4C.length = 200 := by
  show (List.replicate 200 3).length = 200
  rw [List.length_replicate]

/-- C4: the failing input evaluated.  The payloads A (800 bytes), B (600
bytes), C (200 bytes) are each longer than 100 bytes, so
`classify_input_priority` assigns all three `Bulk` — the sequence is
priority-homogeneous as the claim requires.  After `send_terminal_input`
enqueues them in order, the worker's 1KB coalescing pass packs A and C into
the first write (B does not fit after A, but the loop keeps scanning and C
still does), so the channel records A ++ C ++ B — not the enqueue-order
concatenation A ++ B ++ C.  All three payloads are successfully written,
yet the ordering part of the round-trip claim fails. -/
theorem terminal_worker_reorders_input :
    classify_input_priority c4A = .Bulk
    ∧ classify_input_priority c4B = .Bulk
    ∧ classify_input_priority c4C = .Bulk
    ∧ (send_terminal_input oneTerminalState [] "t1" c4A).2 = [c4A]
    ∧ (send_terminal_input oneTerminalState [c4A] "t1" c4B).2 = [c4A, c4B]
    ∧ (send_terminal_input oneTerminalState [c4A, c4B] "t1" c4C).2 = [c4A, c4B, c4C]
    ∧ terminalWorkerWritten 2 [c4A, c4B, c4C] [] = c4A ++ c4C ++ c4B
    ∧ terminalWorkerWritten 2 [c4A, c4B, c4C] [] ≠ c4A ++ (c4B ++ c4C) := by
  have hsend : ∀ pending (d : List Nat),
      (send_terminal_input oneTerminalState pending "t1" d).2 = pending ++ [d] := by
    intro pending d
    unfold send_terminal_input
    rw [if_pos (by decide)]
  have hb1 : batchInput [c4A, c4B, c4C] 0 = (c4A ++ (c4C ++ []), [c4B]) := by
    rw [batchInput_cons_fit c4A [c4B, c4C] 0 (by rw [c4A_len]; norm_num)]
    rw [batchInput_cons_nofit c4B [c4C] (0 + c4A.length)
      (by rw [c4A_len, c4B_len]; norm_num)]
    rw [batchInput_cons_fit c4C [] (0 + c4A.length)
      (by rw [c4A_len, c4C_len]; norm_num)]
    rw [batchInput_nil]
  have hb2 : batchInput [c4B] 0 = (c4B ++ [], []) := by
    rw [batchInput_cons_fit c4B [] 0 (by rw [c4B_len]; norm_num), batchInput_nil]
  have hrun : terminalWorkerWritten 2 [c4A, c4B, c4C] [] = c4A ++ c4C ++ c4B := by
    rw [terminalWorkerWritten]
    rw [show ([] : List (List Nat)) ++ ([c4A, c4B, c4C].take 10) = [c4A, c4B, c4C] from rfl]
    rw [hb1]
    rw [show ([c4A, c4B, c4C].drop 10) = ([] : List (List Nat)) from rfl]
    rw [terminalWorkerWritten]
    rw [show ([c4B] : List (List Nat)) ++ ([] : List (List Nat)).take 10 = [c4B] from rfl]
    rw [hb2]
    rw [show (([] : List (List Nat)).drop 10) = ([] : List (List Nat)) from rfl]
    rw [terminalWorkerWritten]
    simp [List.append_assoc]
  have hclsA : classify_input_priority c4A = .Bulk :=
    classify_long_replicate 800 1 (by norm_num) (by norm_num)
  have hclsB : classify_input_priority c4B = .Bulk :=
    classify_long_replicate 600 2 (by norm_num) (by norm_num)
  have hclsC : classify_input_priority c4C = .Bulk :=
    classify_long_replicate 200 3 (by norm_num) (by norm_num)
  refine ⟨hclsA, hclsB, hclsC, hsend [] c4A, hsend [c4A] c4B, hsend [c4A, c4B] c4C,
    hrun, ?_⟩
  rw [hrun]
  intro hcontra
  rw [List.append_assoc] at hcontra
  have h1 : c4C ++ c4B = c4B ++ c4C := List.append_cancel_left hcontra
  have hC : c4C = 3 :: List.replicate 199 3 := by
    show List.replicate 200 3 = _
    rw [show (200 : Nat) = 199 + 1 from rfl, List.replicate_succ]
  have hB : c4B = 2 :: List.replicate 599 2 := by
    show List.replicate 600 2 = _
    rw [show (600 : Nat) = 599 + 1 from rfl, List.replicate_succ]
  rw [hC, hB, List.cons_append, List.cons_append] at h1
  have := List.head_eq_of_cons_eq h1
  exact absurd this (by decide)

end LovelyERes
